import Mathlib

/-!
Verification of the `ragnarok_networking` packet codec
(`src/ragnarok_networking/src/lib.rs`) against its specification.

Bytes are modelled as `Nat` values below 256; machine-integer overflow and
truncation are made explicit with `% 2^w`.  The byte-cursor type
`ByteStream` and the little-endian primitive reads live in the
`ragnarok_bytes` crate, which is not part of the sources here; they are
modelled from the specification's ByteCursor contract (section 4.1): a
forward-only offset over a byte buffer where any read past the end fails
with an out-of-bounds error.
-/

deriving instance DecidableEq for Except

/-- Modelled from the spec: the error taxonomy of the codec
(`ConversionError` of the `ragnarok_bytes` crate, spec section 7).
`Message` carries the text passed to `ConversionError::from_message`. -/
inductive ConversionError where
  | OutOfBounds : ConversionError
  | Message : String → ConversionError
  | MalformedLength : ConversionError
deriving DecidableEq, Repr

/-- Modelled from the spec: the byte cursor of the `ragnarok_bytes` crate
(spec section 4.1): a borrowed byte buffer plus a read offset. -/
structure ByteStream where
  data : List Nat
  offset : Nat
deriving DecidableEq, Repr

/-- Modelled from the spec: `ByteStream::slice(n)` returns the next `n`
bytes and advances the offset by `n`; it fails with out-of-bounds when
fewer than `n` bytes remain. -/
def ByteStream.slice (bs : ByteStream) (n : Nat) : Except ConversionError (List Nat × ByteStream) :=
  if bs.offset + n ≤ bs.data.length then
    .ok ((bs.data.drop bs.offset).take n, { bs with offset := bs.offset + n })
  else
    .error .OutOfBounds

/-- Number of bytes left in the stream. -/
def ByteStream.remaining (bs : ByteStream) : Nat := bs.data.length - bs.offset

/-- Little-endian value of a byte list (first byte least significant). -/
def leValue : List Nat → Nat
  | [] => 0
  | b :: rest => b + 256 * leValue rest

/-- Modelled from the spec: read `n` bytes and decode them as a
little-endian unsigned integer (spec section 4.1, `read_u*`). -/
def readLE (n : Nat) (bs : ByteStream) : Except ConversionError (Nat × ByteStream) :=
  (bs.slice n).map (fun p => (leValue p.1, p.2))

/-- `u8::from_bytes`. -/
def u8_from_bytes (bs : ByteStream) : Except ConversionError (Nat × ByteStream) :=
  readLE 1 bs

/-- `u16::from_bytes` (little endian). -/
def u16_from_bytes (bs : ByteStream) : Except ConversionError (Nat × ByteStream) :=
  readLE 2 bs

/-- `u32::from_bytes` (little endian). -/
def u32_from_bytes (bs : ByteStream) : Except ConversionError (Nat × ByteStream) :=
  readLE 4 bs

/-- `u64::from_bytes` (little endian). -/
def u64_from_bytes (bs : ByteStream) : Except ConversionError (Nat × ByteStream) :=
  readLE 8 bs

/-- `i64::from_bytes`: 8 little-endian bytes, two's complement. -/
def i64_from_bytes (bs : ByteStream) : Except ConversionError (Int × ByteStream) :=
  (readLE 8 bs).map (fun p =>
    (if p.1 < 2 ^ 63 then (p.1 : Int) else (p.1 : Int) - 2 ^ 64, p.2))

/-- `u16::to_bytes`: two little-endian bytes. -/
def u16_to_bytes (v : Nat) : List Nat := [v % 256, v / 256 % 256]

/-- Wrapping subtraction on `u16` (the release-mode semantics of Rust
`a - b` at type u16); both arguments are assumed below `2 ^ 16`. -/
def u16_wrapping_sub (a b : Nat) : Nat := (a + 65536 - b) % 65536

/-- `WorldPosition` (src/ragnarok_networking/src/lib.rs, around line 243):
a pair of `usize` coordinates. -/
structure WorldPosition where
  x : Nat
  y : Nat
deriving DecidableEq, Repr

/-- `WorldPosition::from_bytes` (lib.rs lines 250-263): slices 3 bytes and
computes, in `u8` arithmetic (shifts truncate to 8 bits, hence the
`% 256`),
  x = (c1 >> 6) | (c0 << 2)
  y = (c2 >> 4) | ((c1 & 0b111111) << 4). -/
def WorldPosition.from_bytes (bs : ByteStream) :
    Except ConversionError (WorldPosition × ByteStream) :=
  match bs.slice 3 with
  | .error e => .error e
  | .ok (c, bs') =>
    let x := (c.getD 1 0 >>> 6) ||| ((c.getD 0 0 <<< 2) % 256)
    let y := (c.getD 2 0 >>> 4) ||| (((c.getD 1 0 &&& 63) <<< 4) % 256)
    .ok (⟨x, y⟩, bs')

/-- `WorldPosition::to_bytes` (lib.rs lines 265-275): the `as u8` casts of
the Rust source appear as `% 256`. -/
def WorldPosition.to_bytes (p : WorldPosition) : Except ConversionError (List Nat) :=
  .ok [(p.x >>> 2) % 256,
       ((p.x <<< 6) % 256) ||| (((p.y >>> 4) &&& 63) % 256),
       (p.y <<< 4) % 256]

/-- `WorldPosition2` (lib.rs around line 278): two packed coordinate
pairs. -/
structure WorldPosition2 where
  x1 : Nat
  y1 : Nat
  x2 : Nat
  y2 : Nat
deriving DecidableEq, Repr

/-- `WorldPosition2::from_bytes` (lib.rs lines 286-298): slices 6 bytes,
widens each byte to `usize` first, so no shift truncates. -/
def WorldPosition2.from_bytes (bs : ByteStream) :
    Except ConversionError (WorldPosition2 × ByteStream) :=
  match bs.slice 6 with
  | .error e => .error e
  | .ok (c, bs') =>
    let x1 := (c.getD 1 0 >>> 6) ||| (c.getD 0 0 <<< 2)
    let y1 := (c.getD 2 0 >>> 4) ||| ((c.getD 1 0 &&& 63) <<< 4)
    let x2 := (c.getD 3 0 >>> 2) ||| ((c.getD 2 0 &&& 15) <<< 6)
    let y2 := c.getD 4 0 ||| ((c.getD 3 0 &&& 3) <<< 8)
    .ok (⟨x1, y1, x2, y2⟩, bs')

/-- Encode a position with `WorldPosition::to_bytes`, then decode the
resulting 3 bytes with `WorldPosition::from_bytes`. -/
def wpRoundTrip (x y : Nat) : Except ConversionError WorldPosition :=
  match WorldPosition.to_bytes ⟨x, y⟩ with
  | .error e => .error e
  | .ok bytes => (WorldPosition.from_bytes ⟨bytes, 0⟩).map Prod.fst

/-- `ItemIndex` (lib.rs line 137): logical inventory index; the wire value
is the logical value plus 2. -/
structure ItemIndex where
  val : Nat
deriving DecidableEq, Repr

/-- `ItemIndex::from_bytes` (lib.rs lines 139-143): reads a u16 and
subtracts 2; the u16 subtraction wraps on underflow (release semantics of
`raw - 2`). -/
def ItemIndex.from_bytes (bs : ByteStream) :
    Except ConversionError (ItemIndex × ByteStream) :=
  (u16_from_bytes bs).map (fun p => (⟨u16_wrapping_sub p.1 2⟩, p.2))

/-- `ItemIndex::to_bytes` (lib.rs lines 145-149): writes the u16 value
`self.0 + 2` (u16 addition, hence the `% 65536`). -/
def ItemIndex.to_bytes (i : ItemIndex) : Except ConversionError (List Nat) :=
  .ok (u16_to_bytes ((i.val + 2) % 65536))

/-- Encode an item index, then decode the resulting 2 bytes. -/
def itemIndexRoundTrip (v : Nat) : Except ConversionError ItemIndex :=
  match ItemIndex.to_bytes ⟨v⟩ with
  | .error e => .error e
  | .ok bytes => (ItemIndex.from_bytes ⟨bytes, 0⟩).map Prod.fst

/-- `IncomingPacketExt::packet_from_bytes` (lib.rs lines 47-60),
generic over the packet type: read the 2-byte header; if it differs from
the declared header constant, fail with the message "mismatched header";
otherwise decode the payload. -/
def packet_from_bytes {α : Type} (header : Nat)
    (payload_from_bytes : ByteStream → Except ConversionError (α × ByteStream))
    (bs : ByteStream) : Except ConversionError (α × ByteStream) :=
  match u16_from_bytes bs with
  | .error e => .error e
  | .ok (tag, bs') =>
    if tag ≠ header then .error (.Message "mismatched header")
    else payload_from_bytes bs'

set_option maxHeartbeats 1600000

/-- `StatusType` (lib.rs lines 960-1027): the variants and their payload
widths, with u8/u16/u32/u64 payloads modelled as `Nat`. -/
inductive StatusType where
  | Weight : Nat → StatusType
  | MaximumWeight : Nat → StatusType
  | MovementSpeed : Nat → StatusType
  | BaseLevel : Nat → StatusType
  | JobLevel : Nat → StatusType
  | Karma : Nat → StatusType
  | Manner : Nat → StatusType
  | StatusPoint : Nat → StatusType
  | SkillPoint : Nat → StatusType
  | Hit : Nat → StatusType
  | Flee1 : Nat → StatusType
  | Flee2 : Nat → StatusType
  | MaximumHealthPoints : Nat → StatusType
  | MaximumSpellPoints : Nat → StatusType
  | HealthPoints : Nat → StatusType
  | SpellPoints : Nat → StatusType
  | AttackSpeed : Nat → StatusType
  | Attack1 : Nat → StatusType
  | Defense1 : Nat → StatusType
  | MagicDefense1 : Nat → StatusType
  | Attack2 : Nat → StatusType
  | Defense2 : Nat → StatusType
  | MagicDefense2 : Nat → StatusType
  | Critical : Nat → StatusType
  | MagicAttack1 : Nat → StatusType
  | MagicAttack2 : Nat → StatusType
  | Zeny : Nat → StatusType
  | BaseExperience : Nat → StatusType
  | JobExperience : Nat → StatusType
  | NextBaseExperience : Nat → StatusType
  | NextJobExperience : Nat → StatusType
  | SpUstr : Nat → StatusType
  | SpUagi : Nat → StatusType
  | SpUvit : Nat → StatusType
  | SpUint : Nat → StatusType
  | SpUdex : Nat → StatusType
  | SpUluk : Nat → StatusType
  | Strength : Nat → Nat → StatusType
  | Agility : Nat → Nat → StatusType
  | Vitality : Nat → Nat → StatusType
  | Intelligence : Nat → Nat → StatusType
  | Dexterity : Nat → Nat → StatusType
  | Luck : Nat → Nat → StatusType
  | CartInfo : Nat → Nat → Nat → StatusType
  | ActivityPoints : Nat → StatusType
  | TraitPoint : Nat → StatusType
  | MaximumActivityPoints : Nat → StatusType
  | Power : Nat → Nat → StatusType
  | Stamina : Nat → Nat → StatusType
  | Wisdom : Nat → Nat → StatusType
  | Spell : Nat → Nat → StatusType
  | Concentration : Nat → Nat → StatusType
  | Creativity : Nat → Nat → StatusType
  | SpUpow : Nat → StatusType
  | SpUsta : Nat → StatusType
  | SpUwis : Nat → StatusType
  | SpUspl : Nat → StatusType
  | SpUcon : Nat → StatusType
  | SpUcrt : Nat → StatusType
  | PhysicalAttack : Nat → StatusType
  | SpellMagicAttack : Nat → StatusType
  | Resistance : Nat → StatusType
  | MagicResistance : Nat → StatusType
  | HealingPlus : Nat → StatusType
  | CriticalDamageRate : Nat → StatusType
deriving Repr

/-- One match arm of `StatusType::from_bytes` of the shape
`rd(byte_stream).map(Self::Variant)`. -/
def statusArm1 (rd : ByteStream → Except ConversionError (Nat × ByteStream))
    (mk : Nat → StatusType) (bs : ByteStream) :
    Except ConversionError (StatusType × ByteStream) :=
  (rd bs).map (fun p => (mk p.1, p.2))

/-- One match arm of `StatusType::from_bytes` of the shape
`u32(..).and_then(|a| Ok(Self::Variant(a, u32(..)?)))`. -/
def statusArm2 (mk : Nat → Nat → StatusType) (bs : ByteStream) :
    Except ConversionError (StatusType × ByteStream) :=
  match u32_from_bytes bs with
  | .error e => .error e
  | .ok (a, bs) => (u32_from_bytes bs).map (fun p => (mk a p.1, p.2))

/-- The `CartInfo` arm of `StatusType::from_bytes`: a u16 followed by two
u32 values. -/
def statusArm3 (mk : Nat → Nat → Nat → StatusType) (bs : ByteStream) :
    Except ConversionError (StatusType × ByteStream) :=
  match u16_from_bytes bs with
  | .error e => .error e
  | .ok (a, bs) =>
    match u32_from_bytes bs with
    | .error e => .error e
    | .ok (b, bs) => (u32_from_bytes bs).map (fun p => (mk a b p.1, p.2))

/-- The match table of `StatusType::from_bytes` (lib.rs lines 1031-1100):
decode the payload of the variant declared for `code`; any other code
fails with the message built by `format!("invalid status code ...")`. -/
def statusDispatch (code : Nat) (bs : ByteStream) :
    Except ConversionError (StatusType × ByteStream) :=
  match code with
    | 0 => statusArm1 u32_from_bytes .MovementSpeed bs
    | 1 => statusArm1 u64_from_bytes .BaseExperience bs
    | 2 => statusArm1 u64_from_bytes .JobExperience bs
    | 3 => statusArm1 u32_from_bytes .Karma bs
    | 4 => statusArm1 u32_from_bytes .Manner bs
    | 5 => statusArm1 u32_from_bytes .HealthPoints bs
    | 6 => statusArm1 u32_from_bytes .MaximumHealthPoints bs
    | 7 => statusArm1 u32_from_bytes .SpellPoints bs
    | 8 => statusArm1 u32_from_bytes .MaximumSpellPoints bs
    | 9 => statusArm1 u32_from_bytes .StatusPoint bs
    | 11 => statusArm1 u32_from_bytes .BaseLevel bs
    | 12 => statusArm1 u32_from_bytes .SkillPoint bs
    | 13 => statusArm2 .Strength bs
    | 14 => statusArm2 .Agility bs
    | 15 => statusArm2 .Vitality bs
    | 16 => statusArm2 .Intelligence bs
    | 17 => statusArm2 .Dexterity bs
    | 18 => statusArm2 .Luck bs
    | 20 => statusArm1 u32_from_bytes .Zeny bs
    | 22 => statusArm1 u64_from_bytes .NextBaseExperience bs
    | 23 => statusArm1 u64_from_bytes .NextJobExperience bs
    | 24 => statusArm1 u32_from_bytes .Weight bs
    | 25 => statusArm1 u32_from_bytes .MaximumWeight bs
    | 32 => statusArm1 u8_from_bytes .SpUstr bs
    | 33 => statusArm1 u8_from_bytes .SpUagi bs
    | 34 => statusArm1 u8_from_bytes .SpUvit bs
    | 35 => statusArm1 u8_from_bytes .SpUint bs
    | 36 => statusArm1 u8_from_bytes .SpUdex bs
    | 37 => statusArm1 u8_from_bytes .SpUluk bs
    | 41 => statusArm1 u32_from_bytes .Attack1 bs
    | 42 => statusArm1 u32_from_bytes .Attack2 bs
    | 43 => statusArm1 u32_from_bytes .MagicAttack1 bs
    | 44 => statusArm1 u32_from_bytes .MagicAttack2 bs
    | 45 => statusArm1 u32_from_bytes .Defense1 bs
    | 46 => statusArm1 u32_from_bytes .Defense2 bs
    | 47 => statusArm1 u32_from_bytes .MagicDefense1 bs
    | 48 => statusArm1 u32_from_bytes .MagicDefense2 bs
    | 49 => statusArm1 u32_from_bytes .Hit bs
    | 50 => statusArm1 u32_from_bytes .Flee1 bs
    | 51 => statusArm1 u32_from_bytes .Flee2 bs
    | 52 => statusArm1 u32_from_bytes .Critical bs
    | 53 => statusArm1 u32_from_bytes .AttackSpeed bs
    | 55 => statusArm1 u32_from_bytes .JobLevel bs
    | 99 => statusArm3 .CartInfo bs
    | 219 => statusArm2 .Power bs
    | 220 => statusArm2 .Stamina bs
    | 221 => statusArm2 .Wisdom bs
    | 222 => statusArm2 .Spell bs
    | 223 => statusArm2 .Concentration bs
    | 224 => statusArm2 .Creativity bs
    | 225 => statusArm1 u32_from_bytes .PhysicalAttack bs
    | 226 => statusArm1 u32_from_bytes .SpellMagicAttack bs
    | 227 => statusArm1 u32_from_bytes .Resistance bs
    | 228 => statusArm1 u32_from_bytes .MagicResistance bs
    | 229 => statusArm1 u32_from_bytes .HealingPlus bs
    | 230 => statusArm1 u32_from_bytes .CriticalDamageRate bs
    | 231 => statusArm1 u32_from_bytes .TraitPoint bs
    | 232 => statusArm1 u32_from_bytes .ActivityPoints bs
    | 233 => statusArm1 u32_from_bytes .MaximumActivityPoints bs
    | 247 => statusArm1 u8_from_bytes .SpUpow bs
    | 248 => statusArm1 u8_from_bytes .SpUsta bs
    | 249 => statusArm1 u8_from_bytes .SpUwis bs
    | 250 => statusArm1 u8_from_bytes .SpUspl bs
    | 251 => statusArm1 u8_from_bytes .SpUcon bs
    | 252 => statusArm1 u8_from_bytes .SpUcrt bs
    | invalid => .error (.Message ("invalid status code " ++ toString invalid))

/-- `StatusType::from_bytes` (lib.rs lines 1029-1103): read a u16 status
code, then decode through the match table. -/
def StatusType.from_bytes (bs : ByteStream) :
    Except ConversionError (StatusType × ByteStream) :=
  match u16_from_bytes bs with
  | .error e => .error e
  | .ok (code, bs) => statusDispatch code bs

/-- The status codes that appear as match arms in
`StatusType::from_bytes`, in source order. -/
def statusCodes : List Nat :=
  [0, 1, 2, 3, 4, 5, 6, 7, 8, 9, 11, 12, 13, 14, 15, 16, 17, 18, 20, 22,
   23, 24, 25, 32, 33, 34, 35, 36, 37, 41, 42, 43, 44, 45, 46, 47, 48,
   49, 50, 51, 52, 53, 55, 99, 219, 220, 221, 222, 223, 224, 225, 226,
   227, 228, 229, 230, 231, 232, 233, 247, 248, 249, 250, 251, 252]

/-- The wire code a `StatusType` variant is declared with in the
`StatusType::from_bytes` match table. -/
def StatusType.code : StatusType → Nat
  | .MovementSpeed _ => 0
  | .BaseExperience _ => 1
  | .JobExperience _ => 2
  | .Karma _ => 3
  | .Manner _ => 4
  | .HealthPoints _ => 5
  | .MaximumHealthPoints _ => 6
  | .SpellPoints _ => 7
  | .MaximumSpellPoints _ => 8
  | .StatusPoint _ => 9
  | .BaseLevel _ => 11
  | .SkillPoint _ => 12
  | .Strength _ _ => 13
  | .Agility _ _ => 14
  | .Vitality _ _ => 15
  | .Intelligence _ _ => 16
  | .Dexterity _ _ => 17
  | .Luck _ _ => 18
  | .Zeny _ => 20
  | .NextBaseExperience _ => 22
  | .NextJobExperience _ => 23
  | .Weight _ => 24
  | .MaximumWeight _ => 25
  | .SpUstr _ => 32
  | .SpUagi _ => 33
  | .SpUvit _ => 34
  | .SpUint _ => 35
  | .SpUdex _ => 36
  | .SpUluk _ => 37
  | .Attack1 _ => 41
  | .Attack2 _ => 42
  | .MagicAttack1 _ => 43
  | .MagicAttack2 _ => 44
  | .Defense1 _ => 45
  | .Defense2 _ => 46
  | .MagicDefense1 _ => 47
  | .MagicDefense2 _ => 48
  | .Hit _ => 49
  | .Flee1 _ => 50
  | .Flee2 _ => 51
  | .Critical _ => 52
  | .AttackSpeed _ => 53
  | .JobLevel _ => 55
  | .CartInfo _ _ _ => 99
  | .Power _ _ => 219
  | .Stamina _ _ => 220
  | .Wisdom _ _ => 221
  | .Spell _ _ => 222
  | .Concentration _ _ => 223
  | .Creativity _ _ => 224
  | .PhysicalAttack _ => 225
  | .SpellMagicAttack _ => 226
  | .Resistance _ => 227
  | .MagicResistance _ => 228
  | .HealingPlus _ => 229
  | .CriticalDamageRate _ => 230
  | .TraitPoint _ => 231
  | .ActivityPoints _ => 232
  | .MaximumActivityPoints _ => 233
  | .SpUpow _ => 247
  | .SpUsta _ => 248
  | .SpUwis _ => 249
  | .SpUspl _ => 250
  | .SpUcon _ => 251
  | .SpUcrt _ => 252

/-- A stream whose first two bytes encode the status code `c` in little
endian, followed by ten zero payload bytes (enough for the widest
payload, the 10-byte `CartInfo`). -/
def statusStream (c : Nat) : ByteStream :=
  ⟨[c % 256, c / 256] ++ List.replicate 10 0, 0⟩

/-- Remove trailing zero (null/padding) bytes. -/
def trimTrailingZeros (l : List Nat) : List Nat :=
  (l.reverse.dropWhile (fun b => b == 0)).reverse

/-- Modelled from the spec: decode of a `length_hint(n)` string field —
read exactly `n` bytes and trim trailing null/padding bytes (spec
section 4.2); the generated codec lives in the `ragnarok_procedural`
crate, which is not among the sources. -/
def readFixedString (n : Nat) (bs : ByteStream) :
    Except ConversionError (List Nat × ByteStream) :=
  (bs.slice n).map (fun p => (trimTrailingZeros p.1, p.2))

/-- Modelled from the spec: encode of a `length_hint(n)` string field —
pad the text out to exactly `n` bytes with zero bytes, failing when the
text is too long to fit (spec section 4.2). -/
def padTo (n : Nat) (l : List Nat) : Except ConversionError (List Nat) :=
  if n < l.length then .error (.Message "text too long")
  else .ok (l ++ List.replicate (n - l.length) 0)

/-- `LoginServerLoginPacket` (lib.rs lines 164-181, header 0x0064):
unused 4-byte version, 24-byte name and password strings, unused
client_type byte — in that declared order.  Strings are byte lists. -/
structure LoginServerLoginPacket where
  version : List Nat
  name : List Nat
  password : List Nat
  client_type : Nat
deriving DecidableEq, Repr

/-- Modelled from the spec: the generated `packet_to_bytes` of
`LoginServerLoginPacket` — the little-endian header 0x0064 followed by
the fields in declared order, strings zero-padded to their
`length_hint` of 24. -/
def LoginServerLoginPacket.packet_to_bytes (p : LoginServerLoginPacket) :
    Except ConversionError (List Nat) :=
  match padTo 24 p.name with
  | .error e => .error e
  | .ok name =>
    match padTo 24 p.password with
    | .error e => .error e
    | .ok password =>
      .ok ([0x64, 0x00] ++ p.version ++ name ++ password ++ [p.client_type])

/-- Modelled from the spec: the field-by-field payload decode of
`LoginServerLoginPacket` in declared order — 4 version bytes, two
24-byte trimmed strings, one client_type byte. -/
def LoginServerLoginPacket.payload_from_bytes (bs : ByteStream) :
    Except ConversionError (LoginServerLoginPacket × ByteStream) :=
  match bs.slice 4 with
  | .error e => .error e
  | .ok (version, bs) =>
    match readFixedString 24 bs with
    | .error e => .error e
    | .ok (name, bs) =>
      match readFixedString 24 bs with
      | .error e => .error e
      | .ok (password, bs) =>
        (u8_from_bytes bs).map (fun p => (⟨version, name, password, p.1⟩, p.2))

/-- Decode a `LoginServerLoginPacket` with its header. -/
def LoginServerLoginPacket.from_bytes (bs : ByteStream) :
    Except ConversionError (LoginServerLoginPacket × ByteStream) :=
  packet_from_bytes 0x64 LoginServerLoginPacket.payload_from_bytes bs

/-- `UnknownPacket` (lib.rs lines 2670-2684): helper struct for unknown
incoming packets, holding the raw packet bytes (header included, as the
element view of the struct reads the signature from them). -/
structure UnknownPacket where
  bytes : List Nat
deriving DecidableEq, Repr

/-- Result of dispatching one packet: a decoded value of a registered
schema, or the unknown-packet passthrough. -/
inductive DispatchResult (α : Type) where
  | known : α → DispatchResult α
  | unknown : UnknownPacket → DispatchResult α
deriving DecidableEq, Repr

/-- Modelled from the spec: packet dispatch (spec section 4.5) — read the
2-byte little-endian header tag; when a schema is registered for the tag,
decode the payload through it; otherwise yield an `UnknownPacket`
passthrough that keeps the raw remaining bytes verbatim (never an
error) and consume the stream. -/
def dispatch_packet {α : Type}
    (schemas : List (Nat × (ByteStream → Except ConversionError (α × ByteStream))))
    (bs : ByteStream) : Except ConversionError (DispatchResult α × ByteStream) :=
  match u16_from_bytes bs with
  | .error e => .error e
  | .ok (tag, bs') =>
    match schemas.lookup tag with
    | some payload_dec => (payload_dec bs').map (fun p => (.known p.1, p.2))
    | none => .ok (.unknown ⟨bs.data.drop bs.offset⟩, { bs' with offset := bs'.data.length })

/-- `ReputationEntry` (lib.rs lines 2599-2604): u64 reputation_type and
i64 points, 16 bytes on the wire. -/
structure ReputationEntry where
  reputation_type : Nat
  points : Int
deriving DecidableEq, Repr

/-- Decode of `ReputationEntry` (derived `ByteConvertable`): a u64
followed by an i64. -/
def ReputationEntry.from_bytes (bs : ByteStream) :
    Except ConversionError (ReputationEntry × ByteStream) :=
  match u64_from_bytes bs with
  | .error e => .error e
  | .ok (t, bs) => (i64_from_bytes bs).map (fun p => (⟨t, p.1⟩, p.2))

/-- Modelled from the spec: the `repeating_remaining` field decode of
`ReputationPacket` — decode 16-byte entries until the region bounded by
the declared packet length is exhausted (spec sections 4.4 and 4.5); a
region boundary that falls inside an entry is out of bounds. -/
def readReputationEntries : Nat → ByteStream →
    Except ConversionError (List ReputationEntry × ByteStream)
  | 0, bs => .ok ([], bs)
  | region + 1, bs =>
    if region + 1 < 16 then .error .OutOfBounds
    else
      match ReputationEntry.from_bytes bs with
      | .error e => .error e
      | .ok (e, bs') =>
        match readReputationEntries (region + 1 - 16) bs' with
        | .error err => .error err
        | .ok (es, bs2) => .ok (e :: es, bs2)
termination_by region _ => region
decreasing_by omega

/-- `ReputationPacket` (lib.rs lines 2606-2615, header 0x0B8D). -/
structure ReputationPacket where
  packet_length : Nat
  success : Nat
  entries : List ReputationEntry
deriving DecidableEq, Repr

/-- Modelled from the spec: the generated payload decode of
`ReputationPacket` — read the self-describing packet_length (a u16 that
counts the 2-byte header), the success byte, then entries until the
declared region (packet_length minus the 2 header bytes and the 3
payload bytes already read) is exhausted; a declared length too short
for the mandatory fields is malformed (spec section 7). -/
def ReputationPacket.payload_from_bytes (bs : ByteStream) :
    Except ConversionError (ReputationPacket × ByteStream) :=
  match u16_from_bytes bs with
  | .error e => .error e
  | .ok (pl, bs) =>
    match u8_from_bytes bs with
    | .error e => .error e
    | .ok (success, bs) =>
      if pl < 5 then .error .MalformedLength
      else (readReputationEntries (pl - 5) bs).map (fun p => (⟨pl, success, p.1⟩, p.2))

/-- `Sex` (lib.rs lines 155-162): a `ByteConvertable` enum with the
default 8-bit wire width and implicit tags 0 to 3. -/
inductive Sex where
  | Female
  | Male
  | Both
  | Server
deriving DecidableEq, Repr

/-- Modelled from the spec: enum decode (spec section 4.3) for `Sex` —
read a u8 and look the variant up by its declared tag; unknown tags
fail. -/
def Sex.from_bytes (bs : ByteStream) : Except ConversionError (Sex × ByteStream) :=
  match u8_from_bytes bs with
  | .error e => .error e
  | .ok (v, bs) =>
    match v with
    | 0 => .ok (.Female, bs)
    | 1 => .ok (.Male, bs)
    | 2 => .ok (.Both, bs)
    | 3 => .ok (.Server, bs)
    | _ => .error (.Message "unknown tag")

/-- `CharacterServerInformation` (lib.rs lines 420-432): 160 bytes on the
wire — 4 ip bytes, u16 port, 20-byte name string, three u16 fields and
128 unknown bytes. -/
structure CharacterServerInformation where
  server_ip : List Nat
  server_port : Nat
  server_name : List Nat
  user_count : Nat
  server_type : Nat
  display_new : Nat
  unknown : List Nat
deriving DecidableEq, Repr

/-- Decode of `CharacterServerInformation` (derived `FromBytes`), field
by field in declared order. -/
def CharacterServerInformation.from_bytes (bs : ByteStream) :
    Except ConversionError (CharacterServerInformation × ByteStream) :=
  match bs.slice 4 with
  | .error e => .error e
  | .ok (ip, bs) =>
    match u16_from_bytes bs with
    | .error e => .error e
    | .ok (port, bs) =>
      match readFixedString 20 bs with
      | .error e => .error e
      | .ok (name, bs) =>
        match u16_from_bytes bs with
        | .error e => .error e
        | .ok (user_count, bs) =>
          match u16_from_bytes bs with
          | .error e => .error e
          | .ok (server_type, bs) =>
            match u16_from_bytes bs with
            | .error e => .error e
            | .ok (display_new, bs) =>
              (bs.slice 128).map (fun p =>
                (⟨ip, port, name, user_count, server_type, display_new, p.1⟩, p.2))

/-- Read `count` consecutive `CharacterServerInformation` entries. -/
def readSInfoCount : Nat → ByteStream →
    Except ConversionError (List CharacterServerInformation × ByteStream)
  | 0, bs => .ok ([], bs)
  | k + 1, bs =>
    match CharacterServerInformation.from_bytes bs with
    | .error e => .error e
    | .ok (e, bs') =>
      match readSInfoCount k bs' with
      | .error err => .error err
      | .ok (es, bs2) => .ok (e :: es, bs2)

/-- Modelled from the spec: the `repeating_remaining` field decode of
`LoginServerLoginSuccessPacket` — decode 160-byte
`CharacterServerInformation` entries until the region bounded by the
declared packet length is exhausted; a region boundary that falls inside
an entry (region not a multiple of the 160-byte entry size) makes the
final partial entry read out of bounds. -/
def readServerInfoEntries (region : Nat) (bs : ByteStream) :
    Except ConversionError (List CharacterServerInformation × ByteStream) :=
  match readSInfoCount (region / 160) bs with
  | .error e => .error e
  | .ok (es, bs') =>
    if region % 160 = 0 then .ok (es, bs') else .error .OutOfBounds

/-- `LoginServerLoginSuccessPacket` (lib.rs lines 186-205, header
0x0AC4). -/
structure LoginServerLoginSuccessPacket where
  packet_length : Nat
  login_id1 : Nat
  account_id : Nat
  login_id2 : Nat
  ip_address : Nat
  name : List Nat
  unknown : Nat
  sex : Sex
  auth_token : List Nat
  character_server_information : List CharacterServerInformation
deriving DecidableEq, Repr

/-- Modelled from the spec: the generated payload decode of
`LoginServerLoginSuccessPacket` — the self-describing packet_length
(u16, counting the 2-byte header), four u32 fields, a 24-byte name, a
u16, the sex enum, a 17-byte auth token (62 payload bytes so far), then
`CharacterServerInformation` entries until the declared region
(packet_length - 64) is exhausted. -/
def LoginServerLoginSuccessPacket.payload_from_bytes (bs : ByteStream) :
    Except ConversionError (LoginServerLoginSuccessPacket × ByteStream) :=
  match u16_from_bytes bs with
  | .error e => .error e
  | .ok (pl, bs) =>
    match u32_from_bytes bs with
    | .error e => .error e
    | .ok (login_id1, bs) =>
      match u32_from_bytes bs with
      | .error e => .error e
      | .ok (account_id, bs) =>
        match u32_from_bytes bs with
        | .error e => .error e
        | .ok (login_id2, bs) =>
          match u32_from_bytes bs with
          | .error e => .error e
          | .ok (ip_address, bs) =>
            match bs.slice 24 with
            | .error e => .error e
            | .ok (name, bs) =>
              match u16_from_bytes bs with
              | .error e => .error e
              | .ok (unknown, bs) =>
                match Sex.from_bytes bs with
                | .error e => .error e
                | .ok (sex, bs) =>
                  match bs.slice 17 with
                  | .error e => .error e
                  | .ok (auth_token, bs) =>
                    if pl < 64 then .error .MalformedLength
                    else
                      (readServerInfoEntries (pl - 64) bs).map (fun p =>
                        (⟨pl, login_id1, account_id, login_id2, ip_address,
                          name, unknown, sex, auth_token, p.1⟩, p.2))

/-- `MapServerLoginSuccessPacket` (lib.rs lines 301-311, header 0x02EB):
u32 client tick, a packed `WorldPosition`, 2 ignored bytes, u16 font. -/
structure MapServerLoginSuccessPacket where
  client_tick : Nat
  position : WorldPosition
  ignored : List Nat
  font : Nat
deriving DecidableEq, Repr

/-- Modelled from the spec: the generated payload decode of
`MapServerLoginSuccessPacket`, field by field in declared order; a
failure of any field decode aborts and propagates (spec section 4.4). -/
def MapServerLoginSuccessPacket.payload_from_bytes (bs : ByteStream) :
    Except ConversionError (MapServerLoginSuccessPacket × ByteStream) :=
  match u32_from_bytes bs with
  | .error e => .error e
  | .ok (tick, bs) =>
    match WorldPosition.from_bytes bs with
    | .error e => .error e
    | .ok (position, bs) =>
      match bs.slice 2 with
      | .error e => .error e
      | .ok (ignored, bs) =>
        (u16_from_bytes bs).map (fun p => (⟨tick, position, ignored, p.1⟩, p.2))

/-! ## Helper lemmas -/

theorem lor_small (k a b : Nat) (hb : b < 2 ^ k) : (2 ^ k * a) ||| b = 2 ^ k * a + b :=
  (Nat.mul_add_lt_is_or hb a).symm

theorem and63 (a : Nat) : a &&& 63 = a % 64 := by
  have := Nat.and_pow_two_sub_one_eq_mod a 6
  norm_num at this
  exact this

/-! ## Claim theorems -/

/-- C1, counterexample: the 12-bit round trip fails at the concrete
position (256, 0) — `WorldPosition::to_bytes` followed by
`WorldPosition::from_bytes` returns (0, 0), because the decoder's `u8`
shift `b0 << 2` drops the high bits. -/
theorem C1_roundtrip_12bit_counterexample :
    wpRoundTrip 256 0 = .ok ⟨0, 0⟩ ∧ wpRoundTrip 256 0 ≠ .ok ⟨256, 0⟩ := by
  constructor
  · decide
  · decide

/-- C1, amended: for every pair (x, y) with 0 ≤ x < 256 and 0 ≤ y < 256
(8-bit range), decoding the 3-byte output of `WorldPosition::to_bytes`
for the position (x, y) via `WorldPosition::from_bytes` yields exactly
(x, y). -/
theorem C1_worldPosition_roundtrip_byte_range (x y : Nat) (hx : x < 256) (hy : y < 256) :
    wpRoundTrip x y = .ok ⟨x, y⟩ := by
  have hb0 : (x >>> 2) % 256 = x / 4 := by
    simp [Nat.shiftRight_eq_div_pow]; omega
  have hb1 : ((x <<< 6) % 256) ||| (((y >>> 4) &&& 63) % 256) = 64 * (x % 4) + y / 16 := by
    simp only [Nat.shiftLeft_eq, Nat.shiftRight_eq_div_pow, and63]
    norm_num
    have h1 : x * 64 % 256 = 64 * (x % 4) := by omega
    have h2 : y / 16 % 64 % 256 = y / 16 := by omega
    rw [h1, h2]
    have := lor_small 6 (x % 4) (y / 16) (by omega)
    norm_num at this
    exact this
  have hb2 : (y <<< 4) % 256 = 16 * (y % 16) := by
    simp [Nat.shiftLeft_eq]; omega
  have hx' : ((64 * (x % 4) + y / 16) >>> 6) ||| (((x / 4) <<< 2) % 256) = x := by
    simp only [Nat.shiftRight_eq_div_pow, Nat.shiftLeft_eq]
    norm_num
    have h1 : (64 * (x % 4) + y / 16) / 64 = x % 4 := by omega
    have h2 : x / 4 * 4 % 256 = 4 * (x / 4) := by omega
    rw [h1, h2]
    rw [Nat.lor_comm]
    have := lor_small 2 (x / 4) (x % 4) (by omega)
    norm_num at this
    omega
  have hy' : ((16 * (y % 16)) >>> 4) ||| ((((64 * (x % 4) + y / 16) &&& 63) <<< 4) % 256) = y := by
    simp only [Nat.shiftRight_eq_div_pow, Nat.shiftLeft_eq, and63]
    norm_num
    have h2 : (64 * (x % 4) + y / 16) % 64 = y / 16 := by omega
    have h3 : y / 16 * 16 % 256 = 16 * (y / 16) := by omega
    rw [h2, h3, Nat.lor_comm]
    have := lor_small 4 (y / 16) (y % 16) (by omega)
    norm_num at this
    omega
  unfold wpRoundTrip WorldPosition.to_bytes WorldPosition.from_bytes
  rw [hb0, hb1, hb2]
  simp [ByteStream.slice, List.getD]
  rw [hx', hy']
  trivial

/-- C1, witness: the amended round trip at the concrete pair (200, 123). -/
theorem C1_worldPosition_roundtrip_witness :
    (200 : Nat) < 256 ∧ (123 : Nat) < 256 ∧ wpRoundTrip 200 123 = .ok ⟨200, 123⟩ :=
  ⟨by decide, by decide,
   C1_worldPosition_roundtrip_byte_range 200 123 (by decide) (by decide)⟩

/-- C2, counterexample: at bytes b0 = 64, b1 = b2 = 0 the claimed lane
value (b1 >> 6) | (b0 << 2) is 256, but `WorldPosition::from_bytes`
returns x = 0: the source computes `b0 << 2` at type u8, which truncates
to 8 bits. -/
theorem C2_lane_formula_counterexample :
    WorldPosition.from_bytes ⟨[64, 0, 0], 0⟩ = .ok (⟨0, 0⟩, ⟨[64, 0, 0], 3⟩) ∧
    ((0 : Nat) >>> 6) ||| (64 <<< 2) ≠ 0 := by
  constructor
  · decide
  · decide

/-- C2, amended: for every byte stream with at least 3 remaining bytes
b0, b1, b2, `WorldPosition::from_bytes` consumes exactly those 3 bytes
and returns x = (b1>>6)|(b0<<2 mod 256) and
y = (b2>>4)|((b1&0x3F)<<4 mod 256), the shifts truncating to the u8
width used by the source; the 6-byte `WorldPosition2::from_bytes`
consumes exactly 6 bytes and extracts the two coordinate pairs by the
analogous lanes, computed without truncation since the source widens the
bytes to usize first. -/
theorem C2_worldPosition_lanes (b0 b1 b2 b3 b4 b5 : Nat) (rest : List Nat) :
    WorldPosition.from_bytes ⟨b0 :: b1 :: b2 :: rest, 0⟩ =
      .ok (⟨(b1 >>> 6) ||| ((b0 <<< 2) % 256),
            (b2 >>> 4) ||| (((b1 &&& 63) <<< 4) % 256)⟩,
           ⟨b0 :: b1 :: b2 :: rest, 3⟩) ∧
    WorldPosition2.from_bytes ⟨b0 :: b1 :: b2 :: b3 :: b4 :: b5 :: rest, 0⟩ =
      .ok (⟨(b1 >>> 6) ||| (b0 <<< 2),
            (b2 >>> 4) ||| ((b1 &&& 63) <<< 4),
            (b3 >>> 2) ||| ((b2 &&& 15) <<< 6),
            b4 ||| ((b3 &&& 3) <<< 8)⟩,
           ⟨b0 :: b1 :: b2 :: b3 :: b4 :: b5 :: rest, 6⟩) := by
  constructor
  · simp [WorldPosition.from_bytes, ByteStream.slice, List.getD]
  · simp [WorldPosition2.from_bytes, ByteStream.slice, List.getD]

/-- C3: `ItemIndex::to_bytes` writes the little-endian u16 wire value
v + 2 for every logical value v ≤ 65533, `ItemIndex::from_bytes` of a
wire value w ≥ 2 returns w - 2, and the round trip restores v. -/
theorem C3_itemIndex_adjustment (v w : Nat) (hv : v ≤ 65533) (hw2 : 2 ≤ w)
    (hw : w < 65536) :
    ItemIndex.to_bytes ⟨v⟩ = .ok (u16_to_bytes (v + 2)) ∧
    ItemIndex.from_bytes ⟨u16_to_bytes w, 0⟩ = .ok (⟨w - 2⟩, ⟨u16_to_bytes w, 2⟩) ∧
    itemIndexRoundTrip v = .ok ⟨v⟩ := by
  have hmod : (v + 2) % 65536 = v + 2 := by omega
  have hdec : ∀ u : Nat, u < 65536 →
      ItemIndex.from_bytes ⟨u16_to_bytes u, 0⟩ =
        .ok (⟨u16_wrapping_sub u 2⟩, ⟨u16_to_bytes u, 2⟩) := by
    intro u hu
    simp [ItemIndex.from_bytes, u16_from_bytes, readLE, ByteStream.slice,
      u16_to_bytes, leValue, Except.map, u16_wrapping_sub]
    omega
  refine ⟨?_, ?_, ?_⟩
  · simp [ItemIndex.to_bytes, hmod]
  · rw [hdec w hw]
    have : u16_wrapping_sub w 2 = w - 2 := by unfold u16_wrapping_sub; omega
    rw [this]
  · unfold itemIndexRoundTrip
    simp only [ItemIndex.to_bytes, hmod]
    rw [hdec (v + 2) (by omega)]
    have : u16_wrapping_sub (v + 2) 2 = v := by unfold u16_wrapping_sub; omega
    simp [this, Except.map]

/-- C3, witness: the adjustment at v = 41, w = 43. -/
theorem C3_itemIndex_adjustment_witness :
    (41 : Nat) ≤ 65533 ∧ (2 : Nat) ≤ 43 ∧ (43 : Nat) < 65536 ∧
    (ItemIndex.to_bytes ⟨41⟩ = .ok (u16_to_bytes 43) ∧
     ItemIndex.from_bytes ⟨u16_to_bytes 43, 0⟩ = .ok (⟨41⟩, ⟨u16_to_bytes 43, 2⟩) ∧
     itemIndexRoundTrip 41 = .ok ⟨41⟩) :=
  ⟨by decide, by decide, by decide,
   C3_itemIndex_adjustment 41 43 (by decide) (by decide) (by decide)⟩

/-- C4: `packet_from_bytes` fails with the mismatched-header error
whenever the first two bytes decode (little endian) to a value other
than the packet's declared header, and decodes the payload exactly when
they match. -/
theorem C4_mismatched_header {α : Type} (header : Nat)
    (payload : ByteStream → Except ConversionError (α × ByteStream))
    (b0 b1 : Nat) (rest : List Nat) :
    (b0 + 256 * b1 ≠ header →
      packet_from_bytes header payload ⟨b0 :: b1 :: rest, 0⟩ =
        .error (.Message "mismatched header")) ∧
    (b0 + 256 * b1 = header →
      packet_from_bytes header payload ⟨b0 :: b1 :: rest, 0⟩ =
        payload ⟨b0 :: b1 :: rest, 2⟩) := by
  have hread : u16_from_bytes ⟨b0 :: b1 :: rest, 0⟩ =
      .ok (b0 + 256 * b1, ⟨b0 :: b1 :: rest, 2⟩) := by
    simp [u16_from_bytes, readLE, ByteStream.slice, leValue, Except.map]
  constructor
  · intro hne
    unfold packet_from_bytes
    rw [hread]
    simp [hne]
  · intro heq
    unfold packet_from_bytes
    rw [hread]
    simp [heq]

/-- C4, witness: header 100 against streams with tags 1 and 100. -/
theorem C4_mismatched_header_witness :
    ((1 : Nat) + 256 * 0 ≠ 100 ∧
     packet_from_bytes 100 (fun bs => .ok ((0 : Nat), bs)) ⟨[1, 0, 9], 0⟩ =
       .error (.Message "mismatched header")) ∧
    ((100 : Nat) + 256 * 0 = 100 ∧
     packet_from_bytes 100 (fun bs => .ok ((0 : Nat), bs)) ⟨[100, 0, 9], 0⟩ =
       .ok (0, ⟨[100, 0, 9], 2⟩)) :=
  ⟨⟨by decide,
    (C4_mismatched_header 100 (fun bs => .ok (0, bs)) 1 0 [9]).1 (by decide)⟩,
   ⟨by decide,
    (C4_mismatched_header 100 (fun bs => .ok (0, bs)) 100 0 [9]).2 (by decide)⟩⟩

/-- C10: for wire values w < 2, `ItemIndex::from_bytes` performs the u16
subtraction w - 2, which underflows and wraps to a value of at least
65534 (release semantics; a checked build traps instead) — it returns
that wrapped value as a success, never a decode error. -/
theorem C10_itemIndex_underflow (w : Nat) (hw : w < 2) :
    ItemIndex.from_bytes ⟨[w, 0], 0⟩ =
      .ok (⟨u16_wrapping_sub w 2⟩, ⟨[w, 0], 2⟩) ∧
    65534 ≤ u16_wrapping_sub w 2 := by
  constructor
  · simp [ItemIndex.from_bytes, u16_from_bytes, readLE, ByteStream.slice, leValue,
      Except.map]
  · unfold u16_wrapping_sub
    omega

/-- C10, witness: wire value 0 decodes to the wrapped value 65534. -/
theorem C10_itemIndex_underflow_witness :
    (0 : Nat) < 2 ∧
    (ItemIndex.from_bytes ⟨[0, 0], 0⟩ =
       .ok (⟨u16_wrapping_sub 0 2⟩, ⟨[0, 0], 2⟩) ∧
     65534 ≤ u16_wrapping_sub 0 2) :=
  ⟨by decide, C10_itemIndex_underflow 0 (by decide)⟩

/-- C5: decoding a status value whose u16 code is outside the explicit
match table of `StatusType::from_bytes` fails (there is no silent
default variant), and every code inside the table decodes successfully
to the variant declared for exactly that code.  The stream supplies ten
zero payload bytes, enough for every variant's payload. -/
theorem C5_statusType_match_table (c : Nat) (hc : c < 65536) :
    ((StatusType.from_bytes (statusStream c)).isOk = true ↔ c ∈ statusCodes) ∧
    (c ∈ statusCodes →
      (StatusType.from_bytes (statusStream c)).map (fun p => p.1.code) = .ok c) := by
  have hread : u16_from_bytes (statusStream c) =
      .ok (c, ⟨[c % 256, c / 256] ++ List.replicate 10 0, 2⟩) := by
    simp [u16_from_bytes, readLE, ByteStream.slice, statusStream, leValue, Except.map]
    omega
  have hsplit : StatusType.from_bytes (statusStream c) =
      statusDispatch c ⟨[c % 256, c / 256] ++ List.replicate 10 0, 2⟩ := by
    unfold StatusType.from_bytes
    rw [hread]
  rw [hsplit]
  unfold statusDispatch
  split
  all_goals first
    | exact ⟨by decide, by decide⟩
    | (refine ⟨⟨fun h => ?_, fun hmem => ?_⟩, fun hmem => ?_⟩
       · simp [Except.isOk, Except.toBool] at h
       · simp only [statusCodes, List.mem_cons, List.not_mem_nil, or_false] at hmem
         simp_all
       · simp only [statusCodes, List.mem_cons, List.not_mem_nil, or_false] at hmem
         simp_all)

/-- C5, witness: code 5 (HealthPoints) is in the table and decodes to the
variant with code 5; the bound 5 < 65536 holds. -/
theorem C5_statusType_match_table_witness :
    (5 : Nat) < 65536 ∧
    (((StatusType.from_bytes (statusStream 5)).isOk = true ↔ 5 ∈ statusCodes) ∧
     (5 ∈ statusCodes →
       (StatusType.from_bytes (statusStream 5)).map (fun p => p.1.code) = .ok 5)) :=
  ⟨by decide, C5_statusType_match_table 5 (by decide)⟩

theorem u16_read_cons (b0 b1 : Nat) (rest : List Nat) :
    u16_from_bytes ⟨b0 :: b1 :: rest, 0⟩ = .ok (b0 + 256 * b1, ⟨b0 :: b1 :: rest, 2⟩) := by
  simp [u16_from_bytes, readLE, ByteStream.slice, leValue, Except.map]

theorem wp_from_bytes_oob (bs : ByteStream) (h : bs.remaining < 3) :
    WorldPosition.from_bytes bs = .error .OutOfBounds := by
  unfold WorldPosition.from_bytes ByteStream.slice
  rw [if_neg (by unfold ByteStream.remaining at h; omega)]

theorem wp2_from_bytes_oob (bs : ByteStream) (h : bs.remaining < 6) :
    WorldPosition2.from_bytes bs = .error .OutOfBounds := by
  unfold WorldPosition2.from_bytes ByteStream.slice
  rw [if_neg (by unfold ByteStream.remaining at h; omega)]

/-- C7: when the 2-byte header tag has no registered schema, dispatch
returns the `UnknownPacket` passthrough carrying the raw bytes verbatim
(header included, as the source's `UnknownPacket` stores them) and is
never an error. -/
theorem C7_unknown_packet_passthrough {α : Type}
    (schemas : List (Nat × (ByteStream → Except ConversionError (α × ByteStream))))
    (b0 b1 : Nat) (rest : List Nat)
    (hun : schemas.lookup (b0 + 256 * b1) = none) :
    dispatch_packet schemas ⟨b0 :: b1 :: rest, 0⟩ =
      .ok (.unknown ⟨b0 :: b1 :: rest⟩, ⟨b0 :: b1 :: rest, rest.length + 2⟩) := by
  simp [dispatch_packet, u16_read_cons, hun]

/-- C7, witness: an empty schema table at the concrete stream
[1, 0, 5, 6]. -/
theorem C7_unknown_packet_passthrough_witness :
    ([] : List (Nat × (ByteStream → Except ConversionError (Nat × ByteStream)))).lookup
        ((1 : Nat) + 256 * 0) = none ∧
    dispatch_packet
        ([] : List (Nat × (ByteStream → Except ConversionError (Nat × ByteStream))))
        ⟨[1, 0, 5, 6], 0⟩ =
      .ok (.unknown ⟨[1, 0, 5, 6]⟩, ⟨[1, 0, 5, 6], 4⟩) :=
  ⟨rfl, C7_unknown_packet_passthrough [] 1 0 [5, 6] rfl⟩

/-- C9: decoding a truncated buffer yields the out-of-bounds error,
never a value: `WorldPosition::from_bytes` with fewer than 3 remaining
bytes and `WorldPosition2::from_bytes` with fewer than 6 fail with
OutOfBounds, and the failure propagates through the enclosing packet
decode (here `MapServerLoginSuccessPacket`, whose position field starts
after the 4-byte client tick). -/
theorem C9_truncated_decode_out_of_bounds :
    (∀ bs : ByteStream, bs.remaining < 3 →
      WorldPosition.from_bytes bs = .error .OutOfBounds) ∧
    (∀ bs : ByteStream, bs.remaining < 6 →
      WorldPosition2.from_bytes bs = .error .OutOfBounds) ∧
    (∀ pre k : List Nat, pre.length = 4 → k.length < 3 →
      MapServerLoginSuccessPacket.payload_from_bytes ⟨pre ++ k, 0⟩ =
        .error .OutOfBounds) := by
  refine ⟨wp_from_bytes_oob, wp2_from_bytes_oob, ?_⟩
  intro pre k hpre hk
  have h32 : u32_from_bytes ⟨pre ++ k, 0⟩ =
      .ok (leValue ((pre ++ k).take 4), ⟨pre ++ k, 4⟩) := by
    unfold u32_from_bytes readLE ByteStream.slice
    rw [if_pos (by simp; omega)]
    simp [Except.map]
  have hwp := wp_from_bytes_oob ⟨pre ++ k, 4⟩ (by simp [ByteStream.remaining]; omega)
  simp [MapServerLoginSuccessPacket.payload_from_bytes, h32, hwp]

/-- C9, witness: concrete truncated buffers for all three parts. -/
theorem C9_truncated_decode_witness :
    WorldPosition.from_bytes ⟨[1, 2], 0⟩ = .error .OutOfBounds ∧
    WorldPosition2.from_bytes ⟨[1, 2, 3, 4, 5], 0⟩ = .error .OutOfBounds ∧
    MapServerLoginSuccessPacket.payload_from_bytes ⟨[9, 9, 9, 9] ++ [1, 2], 0⟩ =
      .error .OutOfBounds :=
  ⟨C9_truncated_decode_out_of_bounds.1 ⟨[1, 2], 0⟩ (by decide),
   C9_truncated_decode_out_of_bounds.2.1 ⟨[1, 2, 3, 4, 5], 0⟩ (by decide),
   C9_truncated_decode_out_of_bounds.2.2 [9, 9, 9, 9] [1, 2] (by decide) (by decide)⟩

theorem takeWhile_zeros (l : List Nat) :
    l.takeWhile (fun b => b == 0) =
      List.replicate (l.takeWhile (fun b => b == 0)).length 0 :=
  List.eq_replicate_of_mem (fun b hb => by simpa using List.mem_takeWhile_imp hb)

theorem trim_append_replicate (l : List Nat) :
    trimTrailingZeros l ++
      List.replicate (l.length - (trimTrailingZeros l).length) 0 = l := by
  have hsplit := List.takeWhile_append_dropWhile (fun b => b == 0) l.reverse
  have hlen := congrArg List.length hsplit
  simp only [List.length_append, List.length_reverse] at hlen
  unfold trimTrailingZeros
  rw [List.length_reverse]
  conv_rhs => rw [← List.reverse_reverse l, ← hsplit, List.reverse_append]
  congr 1
  rw [takeWhile_zeros l.reverse, List.reverse_replicate]
  congr 1
  omega

theorem trim_length_le (l : List Nat) : (trimTrailingZeros l).length ≤ l.length := by
  have hsplit := List.takeWhile_append_dropWhile (fun b => b == 0) l.reverse
  have hlen := congrArg List.length hsplit
  simp only [List.length_append, List.length_reverse] at hlen
  unfold trimTrailingZeros
  rw [List.length_reverse]
  omega

theorem padTo_trim (l : List Nat) : padTo l.length (trimTrailingZeros l) = .ok l := by
  unfold padTo
  rw [if_neg (by have := trim_length_le l; omega)]
  rw [trim_append_replicate]

theorem slice_exact (d pre mid post : List Nat) (o n : Nat)
    (hd : d = pre ++ (mid ++ post)) (ho : o = pre.length) (hn : n = mid.length) :
    ByteStream.slice ⟨d, o⟩ n = .ok (mid, ⟨d, o + n⟩) := by
  subst hd ho hn
  unfold ByteStream.slice
  rw [if_pos (by simp)]
  rw [List.drop_left, List.take_left]

/-- C6, counterexample: the claim's byte layout puts the five fixed zero
bytes after the password, but the struct declares the 4-byte version
field first; decoding the claim's layout therefore absorbs the first
name byte into the version field and the decoded name is twenty zeros
followed by the first password byte, not the trimmed input name. -/
theorem C6_scenario_layout_counterexample :
    (LoginServerLoginPacket.from_bytes
        ⟨[0x64, 0x00] ++ (0x61 :: List.replicate 23 0) ++
          (0x62 :: List.replicate 23 0) ++ [0, 0, 0, 0, 0], 0⟩).map
        (fun q => q.1.name) =
      .ok (List.replicate 20 0 ++ [0x62]) ∧
    trimTrailingZeros (0x61 :: List.replicate 23 0) = [0x61] ∧
    (List.replicate 20 0 ++ [0x62] : List Nat) ≠ [0x61] :=
  ⟨by decide, by decide, by decide⟩

/-- C6, amended: decoding the byte sequence
[0x64, 0x00] ++ version(4 bytes) ++ name(24 bytes) ++ password(24 bytes)
++ client_type(1 byte) — the fixed fields in their declared positions —
yields the login-request value whose name and password are the input
regions with trailing padding trimmed, and re-encoding that value
reproduces the original 55-byte sequence exactly. -/
theorem C6_login_packet_scenario (v n p : List Nat) (ct : Nat)
    (hv : v.length = 4) (hn : n.length = 24) (hp : p.length = 24) :
    LoginServerLoginPacket.from_bytes ⟨[0x64, 0x00] ++ v ++ n ++ p ++ [ct], 0⟩ =
      .ok (⟨v, trimTrailingZeros n, trimTrailingZeros p, ct⟩,
           ⟨[0x64, 0x00] ++ v ++ n ++ p ++ [ct], 55⟩) ∧
    LoginServerLoginPacket.packet_to_bytes
        ⟨v, trimTrailingZeros n, trimTrailingZeros p, ct⟩ =
      .ok ([0x64, 0x00] ++ v ++ n ++ p ++ [ct]) := by
  have h1 : u16_from_bytes ⟨[0x64, 0x00] ++ v ++ n ++ p ++ [ct], 0⟩ =
      .ok (0x64, ⟨[0x64, 0x00] ++ v ++ n ++ p ++ [ct], 2⟩) := by
    unfold u16_from_bytes readLE
    rw [slice_exact _ [] [0x64, 0x00] (v ++ (n ++ (p ++ [ct]))) 0 2 (by simp) rfl rfl]
    simp [Except.map, leValue]
  have h2 : ByteStream.slice ⟨[0x64, 0x00] ++ v ++ n ++ p ++ [ct], 2⟩ 4 =
      .ok (v, ⟨[0x64, 0x00] ++ v ++ n ++ p ++ [ct], 6⟩) := by
    simpa using slice_exact _ [0x64, 0x00] v (n ++ (p ++ [ct])) 2 4 (by simp) (by simp) hv.symm
  have h3 : readFixedString 24 ⟨[0x64, 0x00] ++ v ++ n ++ p ++ [ct], 6⟩ =
      .ok (trimTrailingZeros n, ⟨[0x64, 0x00] ++ v ++ n ++ p ++ [ct], 30⟩) := by
    unfold readFixedString
    rw [slice_exact _ ([0x64, 0x00] ++ v) n (p ++ [ct]) 6 24 (by simp) (by simp [hv]) hn.symm]
    simp [Except.map]
  have h4 : readFixedString 24 ⟨[0x64, 0x00] ++ v ++ n ++ p ++ [ct], 30⟩ =
      .ok (trimTrailingZeros p, ⟨[0x64, 0x00] ++ v ++ n ++ p ++ [ct], 54⟩) := by
    unfold readFixedString
    rw [slice_exact _ ([0x64, 0x00] ++ (v ++ n)) p [ct] 30 24 (by simp) (by simp [hv, hn]) hp.symm]
    simp [Except.map]
  have h5 : u8_from_bytes ⟨[0x64, 0x00] ++ v ++ n ++ p ++ [ct], 54⟩ =
      .ok (ct, ⟨[0x64, 0x00] ++ v ++ n ++ p ++ [ct], 55⟩) := by
    unfold u8_from_bytes readLE
    rw [slice_exact _ ([0x64, 0x00] ++ (v ++ (n ++ p))) [ct] [] 54 1 (by simp)
      (by simp [hv, hn, hp]) rfl]
    simp [Except.map, leValue]
  constructor
  · simp only [LoginServerLoginPacket.from_bytes, packet_from_bytes, h1]
    rw [if_neg (by simp)]
    simp only [LoginServerLoginPacket.payload_from_bytes, h2, h3, h4, h5]
    simp [Except.map]
  · unfold LoginServerLoginPacket.packet_to_bytes
    have hn24 : padTo 24 (trimTrailingZeros n) = .ok n := by
      conv_lhs => rw [← hn]
      exact padTo_trim n
    have hp24 : padTo 24 (trimTrailingZeros p) = .ok p := by
      conv_lhs => rw [← hp]
      exact padTo_trim p
    simp [hn24, hp24]

/-- C6, witness: the amended scenario at version [0,0,0,0], name
"a" (0x61 plus padding), password "b" (0x62 plus padding) and
client_type 0. -/
theorem C6_login_packet_scenario_witness :
    ([0, 0, 0, 0] : List Nat).length = 4 ∧
    (0x61 :: List.replicate 23 0 : List Nat).length = 24 ∧
    (0x62 :: List.replicate 23 0 : List Nat).length = 24 ∧
    (LoginServerLoginPacket.from_bytes
        ⟨[0x64, 0x00] ++ [0, 0, 0, 0] ++ (0x61 :: List.replicate 23 0) ++
          (0x62 :: List.replicate 23 0) ++ [0], 0⟩ =
      .ok (⟨[0, 0, 0, 0], trimTrailingZeros (0x61 :: List.replicate 23 0),
            trimTrailingZeros (0x62 :: List.replicate 23 0), 0⟩,
           ⟨[0x64, 0x00] ++ [0, 0, 0, 0] ++ (0x61 :: List.replicate 23 0) ++
             (0x62 :: List.replicate 23 0) ++ [0], 55⟩) ∧
     LoginServerLoginPacket.packet_to_bytes
        ⟨[0, 0, 0, 0], trimTrailingZeros (0x61 :: List.replicate 23 0),
          trimTrailingZeros (0x62 :: List.replicate 23 0), 0⟩ =
      .ok ([0x64, 0x00] ++ [0, 0, 0, 0] ++ (0x61 :: List.replicate 23 0) ++
           (0x62 :: List.replicate 23 0) ++ [0])) :=
  ⟨by decide, by decide, by decide,
   C6_login_packet_scenario [0, 0, 0, 0] (0x61 :: List.replicate 23 0)
     (0x62 :: List.replicate 23 0) 0 (by decide) (by decide) (by decide)⟩

theorem slice_spec (k : Nat) (d : List Nat) (o : Nat) :
    (o + k ≤ d.length →
      ByteStream.slice ⟨d, o⟩ k = .ok ((d.drop o).take k, ⟨d, o + k⟩)) ∧
    (d.length < o + k → ByteStream.slice ⟨d, o⟩ k = .error .OutOfBounds) := by
  constructor
  · intro h
    unfold ByteStream.slice
    rw [if_pos (by simpa using h)]
  · intro h
    unfold ByteStream.slice
    rw [if_neg (by simp; omega)]

theorem readLE_spec (k : Nat) (d : List Nat) (o : Nat) :
    (o + k ≤ d.length →
      readLE k ⟨d, o⟩ = .ok (leValue ((d.drop o).take k), ⟨d, o + k⟩)) ∧
    (d.length < o + k → readLE k ⟨d, o⟩ = .error .OutOfBounds) := by
  constructor
  · intro h
    unfold readLE
    rw [(slice_spec k d o).1 h]
    simp [Except.map]
  · intro h
    unfold readLE
    rw [(slice_spec k d o).2 h]
    simp [Except.map]

theorem repEntry_ok (d : List Nat) (o : Nat) (h : o + 16 ≤ d.length) :
    ∃ e, ReputationEntry.from_bytes ⟨d, o⟩ = .ok (e, ⟨d, o + 16⟩) := by
  have r1 := (readLE_spec 8 d o).1 (by omega)
  have r2 : readLE 8 ⟨d, o + 8⟩ =
      .ok (leValue ((d.drop (o + 8)).take 8), ⟨d, o + 16⟩) := by
    have := (readLE_spec 8 d (o + 8)).1 (by omega)
    simpa [Nat.add_assoc] using this
  refine ⟨⟨leValue ((d.drop o).take 8),
    if leValue ((d.drop (o + 8)).take 8) < 2 ^ 63 then (leValue ((d.drop (o + 8)).take 8) : Int)
    else (leValue ((d.drop (o + 8)).take 8) : Int) - 2 ^ 64⟩, ?_⟩
  simp only [ReputationEntry.from_bytes, u64_from_bytes, i64_from_bytes, r1, r2, Except.map]

theorem repEntry_err (d : List Nat) (o : Nat) (h : d.length < o + 16) :
    ReputationEntry.from_bytes ⟨d, o⟩ = .error .OutOfBounds := by
  by_cases h8 : o + 8 ≤ d.length
  · have r1 := (readLE_spec 8 d o).1 h8
    have r2 := (readLE_spec 8 d (o + 8)).2 (by omega)
    simp only [ReputationEntry.from_bytes, u64_from_bytes, i64_from_bytes, r1, r2, Except.map]
  · have r1 := (readLE_spec 8 d o).2 (by omega)
    simp only [ReputationEntry.from_bytes, u64_from_bytes, i64_from_bytes, r1, Except.map]

theorem readRep_spec (region : Nat) : ∀ (d : List Nat) (o : Nat), o ≤ d.length →
    ((readReputationEntries region ⟨d, o⟩).isOk = true ↔
      region % 16 = 0 ∧ o + region ≤ d.length) ∧
    (∀ es bs', readReputationEntries region ⟨d, o⟩ = .ok (es, bs') →
      bs' = ⟨d, o + region⟩) := by
  induction region using Nat.strong_induction_on with
  | _ region ih =>
    intro d o ho
    match region with
    | 0 =>
      constructor
      · simp [readReputationEntries, Except.isOk, Except.toBool]
        omega
      · intro es bs' h
        simp [readReputationEntries] at h
        simp [h.2]
    | r + 1 =>
      by_cases hlt : r + 1 < 16
      · rw [readReputationEntries, if_pos hlt]
        constructor
        · simp [Except.isOk, Except.toBool]
          omega
        · intro es bs' h
          simp at h
      · rw [readReputationEntries, if_neg hlt]
        by_cases hb : o + 16 ≤ d.length
        · obtain ⟨e, he⟩ := repEntry_ok d o hb
          have ihs := ih (r + 1 - 16) (by omega) d (o + 16) (by omega)
          cases hrec : readReputationEntries (r + 1 - 16) ⟨d, o + 16⟩ with
          | error err =>
            rw [hrec] at ihs
            simp only [he, hrec]
            constructor
            · simp only [Except.isOk, Except.toBool]
              constructor
              · intro habs
                simp at habs
              · intro hrhs
                exfalso
                have hmem : (r + 1 - 16) % 16 = 0 ∧ o + 16 + (r + 1 - 16) ≤ d.length := by
                  omega
                have := ihs.1.mpr hmem
                simp [Except.isOk, Except.toBool] at this
            · intro es bs' h
              simp at h
          | ok pr =>
            obtain ⟨es', bs2⟩ := pr
            rw [hrec] at ihs
            simp only [he, hrec]
            have hbs2 := ihs.2 es' bs2 rfl
            have hok : (r + 1 - 16) % 16 = 0 ∧ o + 16 + (r + 1 - 16) ≤ d.length :=
              ihs.1.mp (by simp [Except.isOk, Except.toBool])
            constructor
            · simp only [Except.isOk, Except.toBool]
              constructor
              · intro _
                omega
              · intro _
                trivial
            · intro es bs' h
              simp at h
              rw [← h.2, hbs2]
              congr 1
              omega
        · have he := repEntry_err d o (by omega)
          simp only [he]
          refine ⟨?_, ?_⟩
          · simp only [Except.isOk, Except.toBool]
            constructor
            · intro habs
              simp at habs
            · intro hrhs
              exfalso
              omega
          · intro es bs' h
            simp at h

theorem leValue_u16 (pl : Nat) (h : pl < 65536) : leValue (u16_to_bytes pl) = pl := by
  simp [leValue, u16_to_bytes]
  omega

theorem repPacket_payload_spec (pl s : Nat) (rest : List Nat) (hpl : pl < 65536) :
    ((ReputationPacket.payload_from_bytes ⟨u16_to_bytes pl ++ s :: rest, 0⟩).isOk = true ↔
      5 ≤ pl ∧ (pl - 5) % 16 = 0 ∧ pl - 2 ≤ (u16_to_bytes pl ++ s :: rest).length) ∧
    (∀ pkt bs',
      ReputationPacket.payload_from_bytes ⟨u16_to_bytes pl ++ s :: rest, 0⟩ = .ok (pkt, bs') →
      bs' = ⟨u16_to_bytes pl ++ s :: rest, pl - 2⟩ ∧ pkt.packet_length = pl) := by
  have hlen : (u16_to_bytes pl ++ s :: rest).length = 3 + rest.length := by
    simp [u16_to_bytes]
    omega
  have h1 : u16_from_bytes ⟨u16_to_bytes pl ++ s :: rest, 0⟩ =
      .ok (pl, ⟨u16_to_bytes pl ++ s :: rest, 2⟩) := by
    unfold u16_from_bytes readLE
    rw [slice_exact _ [] (u16_to_bytes pl) (s :: rest) 0 2 (by simp) rfl (by simp [u16_to_bytes])]
    simp [Except.map, leValue_u16 pl hpl]
  have h2 : u8_from_bytes ⟨u16_to_bytes pl ++ s :: rest, 2⟩ =
      .ok (s, ⟨u16_to_bytes pl ++ s :: rest, 3⟩) := by
    unfold u8_from_bytes readLE
    rw [slice_exact _ (u16_to_bytes pl) [s] rest 2 1 (by simp) (by simp [u16_to_bytes]) rfl]
    simp [Except.map, leValue]
  simp only [ReputationPacket.payload_from_bytes, h1, h2]
  by_cases hlt5 : pl < 5
  · rw [if_pos hlt5]
    refine ⟨?_, ?_⟩
    · simp only [Except.isOk, Except.toBool]
      constructor
      · intro habs
        simp at habs
      · intro hrhs
        omega
    · intro pkt bs' h
      simp at h
  · rw [if_neg hlt5]
    have hspec := readRep_spec (pl - 5) (u16_to_bytes pl ++ s :: rest) 3 (by omega)
    cases hrr : readReputationEntries (pl - 5) ⟨u16_to_bytes pl ++ s :: rest, 3⟩ with
    | error err =>
      rw [hrr] at hspec
      simp only [hrr, Except.map]
      refine ⟨?_, ?_⟩
      · simp only [Except.isOk, Except.toBool]
        constructor
        · intro habs
          simp at habs
        · intro hrhs
          exfalso
          have hmem : (pl - 5) % 16 = 0 ∧ 3 + (pl - 5) ≤
              (u16_to_bytes pl ++ s :: rest).length := by
            rw [hlen] at *
            omega
          have := hspec.1.mpr hmem
          simp [Except.isOk, Except.toBool] at this
      · intro pkt bs' h
        simp at h
    | ok pr =>
      obtain ⟨es, bs2⟩ := pr
      rw [hrr] at hspec
      simp only [hrr, Except.map]
      have hbs2 := hspec.2 es bs2 rfl
      have hok := hspec.1.mp (by simp [Except.isOk, Except.toBool])
      refine ⟨?_, ?_⟩
      · simp only [Except.isOk, Except.toBool]
        constructor
        · intro _
          rw [hlen] at *
          omega
        · intro _
          trivial
      · intro pkt bs' h
        simp at h
        refine ⟨?_, ?_⟩
        · rw [← h.2, hbs2]
          congr 1
          omega
        · rw [← h.1]

theorem csi_ok (d : List Nat) (o : Nat) (h : o + 160 ≤ d.length) :
    CharacterServerInformation.from_bytes ⟨d, o⟩ =
      .ok (⟨(d.drop o).take 4, leValue ((d.drop (o + 4)).take 2),
            trimTrailingZeros ((d.drop (o + 6)).take 20),
            leValue ((d.drop (o + 26)).take 2), leValue ((d.drop (o + 28)).take 2),
            leValue ((d.drop (o + 30)).take 2), (d.drop (o + 32)).take 128⟩,
           ⟨d, o + 160⟩) := by
  have r1 := (slice_spec 4 d o).1 (by omega)
  have r2 : readLE 2 ⟨d, o + 4⟩ =
      .ok (leValue ((d.drop (o + 4)).take 2), ⟨d, o + 6⟩) := by
    simpa [Nat.add_assoc] using (readLE_spec 2 d (o + 4)).1 (by omega)
  have r3 : ByteStream.slice ⟨d, o + 6⟩ 20 =
      .ok ((d.drop (o + 6)).take 20, ⟨d, o + 26⟩) := by
    simpa [Nat.add_assoc] using (slice_spec 20 d (o + 6)).1 (by omega)
  have r4 : readLE 2 ⟨d, o + 26⟩ =
      .ok (leValue ((d.drop (o + 26)).take 2), ⟨d, o + 28⟩) := by
    simpa [Nat.add_assoc] using (readLE_spec 2 d (o + 26)).1 (by omega)
  have r5 : readLE 2 ⟨d, o + 28⟩ =
      .ok (leValue ((d.drop (o + 28)).take 2), ⟨d, o + 30⟩) := by
    simpa [Nat.add_assoc] using (readLE_spec 2 d (o + 28)).1 (by omega)
  have r6 : readLE 2 ⟨d, o + 30⟩ =
      .ok (leValue ((d.drop (o + 30)).take 2), ⟨d, o + 32⟩) := by
    simpa [Nat.add_assoc] using (readLE_spec 2 d (o + 30)).1 (by omega)
  have r7 : ByteStream.slice ⟨d, o + 32⟩ 128 =
      .ok ((d.drop (o + 32)).take 128, ⟨d, o + 160⟩) := by
    simpa [Nat.add_assoc] using (slice_spec 128 d (o + 32)).1 (by omega)
  simp only [CharacterServerInformation.from_bytes, u16_from_bytes, readFixedString,
    r1, r2, r3, r4, r5, r6, r7, Except.map]

theorem csi_err (d : List Nat) (o : Nat) (h : d.length < o + 160) :
    CharacterServerInformation.from_bytes ⟨d, o⟩ = .error .OutOfBounds := by
  by_cases c1 : o + 4 ≤ d.length
  case neg =>
    have e1 := (slice_spec 4 d o).2 (by omega)
    simp only [CharacterServerInformation.from_bytes, e1]
  have r1 := (slice_spec 4 d o).1 c1
  by_cases c2 : o + 6 ≤ d.length
  case neg =>
    have e2 := (readLE_spec 2 d (o + 4)).2 (by omega)
    simp only [CharacterServerInformation.from_bytes, u16_from_bytes, r1, e2, Except.map]
  have r2 : readLE 2 ⟨d, o + 4⟩ =
      .ok (leValue ((d.drop (o + 4)).take 2), ⟨d, o + 6⟩) := by
    simpa [Nat.add_assoc] using (readLE_spec 2 d (o + 4)).1 (by omega)
  by_cases c3 : o + 26 ≤ d.length
  case neg =>
    have e3 := (slice_spec 20 d (o + 6)).2 (by omega)
    simp only [CharacterServerInformation.from_bytes, u16_from_bytes, readFixedString,
      r1, r2, e3, Except.map]
  have r3 : ByteStream.slice ⟨d, o + 6⟩ 20 =
      .ok ((d.drop (o + 6)).take 20, ⟨d, o + 26⟩) := by
    simpa [Nat.add_assoc] using (slice_spec 20 d (o + 6)).1 (by omega)
  by_cases c4 : o + 28 ≤ d.length
  case neg =>
    have e4 := (readLE_spec 2 d (o + 26)).2 (by omega)
    simp only [CharacterServerInformation.from_bytes, u16_from_bytes, readFixedString,
      r1, r2, r3, e4, Except.map]
  have r4 : readLE 2 ⟨d, o + 26⟩ =
      .ok (leValue ((d.drop (o + 26)).take 2), ⟨d, o + 28⟩) := by
    simpa [Nat.add_assoc] using (readLE_spec 2 d (o + 26)).1 (by omega)
  by_cases c5 : o + 30 ≤ d.length
  case neg =>
    have e5 := (readLE_spec 2 d (o + 28)).2 (by omega)
    simp only [CharacterServerInformation.from_bytes, u16_from_bytes, readFixedString,
      r1, r2, r3, r4, e5, Except.map]
  have r5 : readLE 2 ⟨d, o + 28⟩ =
      .ok (leValue ((d.drop (o + 28)).take 2), ⟨d, o + 30⟩) := by
    simpa [Nat.add_assoc] using (readLE_spec 2 d (o + 28)).1 (by omega)
  by_cases c6 : o + 32 ≤ d.length
  case neg =>
    have e6 := (readLE_spec 2 d (o + 30)).2 (by omega)
    simp only [CharacterServerInformation.from_bytes, u16_from_bytes, readFixedString,
      r1, r2, r3, r4, r5, e6, Except.map]
  have r6 : readLE 2 ⟨d, o + 30⟩ =
      .ok (leValue ((d.drop (o + 30)).take 2), ⟨d, o + 32⟩) := by
    simpa [Nat.add_assoc] using (readLE_spec 2 d (o + 30)).1 (by omega)
  have e7 := (slice_spec 128 d (o + 32)).2 (by omega)
  simp only [CharacterServerInformation.from_bytes, u16_from_bytes, readFixedString,
    r1, r2, r3, r4, r5, r6, e7, Except.map]


theorem readSInfoCount_spec (k : Nat) : ∀ (d : List Nat) (o : Nat), o ≤ d.length →
    ((readSInfoCount k ⟨d, o⟩).isOk = true ↔ o + 160 * k ≤ d.length) ∧
    (∀ es bs', readSInfoCount k ⟨d, o⟩ = .ok (es, bs') → bs' = ⟨d, o + 160 * k⟩) := by
  induction k with
  | zero =>
    intro d o ho
    constructor
    · simp [readSInfoCount, Except.isOk, Except.toBool]
      omega
    · intro es bs' h
      simp [readSInfoCount] at h
      simp [h.2]
  | succ k ih =>
    intro d o ho
    by_cases hb : o + 160 ≤ d.length
    · have he := csi_ok d o hb
      have ihs := ih d (o + 160) (by omega)
      cases hrec : readSInfoCount k ⟨d, o + 160⟩ with
      | error err =>
        rw [hrec] at ihs
        simp only [readSInfoCount, he, hrec]
        constructor
        · simp only [Except.isOk, Except.toBool]
          constructor
          · intro habs
            simp at habs
          · intro hrhs
            exfalso
            have := ihs.1.mpr (by omega)
            simp [Except.isOk, Except.toBool] at this
        · intro es bs' h
          simp at h
      | ok pr =>
        obtain ⟨es', bs2⟩ := pr
        rw [hrec] at ihs
        simp only [readSInfoCount, he, hrec]
        have hbs2 := ihs.2 es' bs2 rfl
        have hok := ihs.1.mp (by simp [Except.isOk, Except.toBool])
        constructor
        · simp only [Except.isOk, Except.toBool]
          constructor
          · intro _
            omega
          · intro _
            trivial
        · intro es bs' h
          simp at h
          rw [← h.2, hbs2]
          congr 1
          ring
    · have he := csi_err d o (by omega)
      simp only [readSInfoCount, he]
      refine ⟨?_, ?_⟩
      · simp only [Except.isOk, Except.toBool]
        constructor
        · intro habs
          simp at habs
        · intro hrhs
          exfalso
          omega
      · intro es bs' h
        simp at h

theorem readSInfo_spec (region : Nat) (d : List Nat) (o : Nat) (ho : o ≤ d.length) :
    ((readServerInfoEntries region ⟨d, o⟩).isOk = true ↔
      region % 160 = 0 ∧ o + region ≤ d.length) ∧
    (∀ es bs', readServerInfoEntries region ⟨d, o⟩ = .ok (es, bs') →
      bs' = ⟨d, o + region⟩) := by
  have hc := readSInfoCount_spec (region / 160) d o ho
  cases hcount : readSInfoCount (region / 160) ⟨d, o⟩ with
  | error err =>
    rw [hcount] at hc
    simp only [readServerInfoEntries, hcount]
    refine ⟨?_, ?_⟩
    · simp only [Except.isOk, Except.toBool]
      constructor
      · intro habs
        simp at habs
      · intro hrhs
        exfalso
        have := hc.1.mpr (by omega)
        simp [Except.isOk, Except.toBool] at this
    · intro es bs' h
      simp at h
  | ok pr =>
    obtain ⟨es', bs2⟩ := pr
    rw [hcount] at hc
    have hbs2 := hc.2 es' bs2 rfl
    have hok := hc.1.mp (by simp [Except.isOk, Except.toBool])
    simp only [readServerInfoEntries, hcount]
    by_cases hmod : region % 160 = 0
    · rw [if_pos hmod]
      refine ⟨?_, ?_⟩
      · simp only [Except.isOk, Except.toBool]
        constructor
        · intro _
          omega
        · intro _
          trivial
      · intro es bs' h
        simp at h
        rw [← h.2, hbs2]
        congr 1
        omega
    · rw [if_neg hmod]
      refine ⟨?_, ?_⟩
      · simp only [Except.isOk, Except.toBool]
        constructor
        · intro habs
          simp at habs
        · intro hrhs
          exact absurd hrhs.1 hmod
      · intro es bs' h
        simp at h

theorem lsls_payload_spec (pl : Nat) (rest : List Nat) (hpl : pl < 65536) :
    ((LoginServerLoginSuccessPacket.payload_from_bytes
        ⟨u16_to_bytes pl ++ List.replicate 60 0 ++ rest, 0⟩).isOk = true ↔
      64 ≤ pl ∧ (pl - 64) % 160 = 0 ∧
      pl - 2 ≤ (u16_to_bytes pl ++ List.replicate 60 0 ++ rest).length) ∧
    (∀ pkt bs',
      LoginServerLoginSuccessPacket.payload_from_bytes
        ⟨u16_to_bytes pl ++ List.replicate 60 0 ++ rest, 0⟩ = .ok (pkt, bs') →
      bs' = ⟨u16_to_bytes pl ++ List.replicate 60 0 ++ rest, pl - 2⟩ ∧
      pkt.packet_length = pl) := by
  have hlen : (u16_to_bytes pl ++ List.replicate 60 0 ++ rest).length = 62 + rest.length := by
    simp only [List.length_append, List.length_replicate, u16_to_bytes,
      List.length_cons, List.length_nil]
  have h1 : u16_from_bytes ⟨u16_to_bytes pl ++ List.replicate 60 0 ++ rest, 0⟩ =
      .ok (pl, ⟨u16_to_bytes pl ++ List.replicate 60 0 ++ rest, 2⟩) := by
    unfold u16_from_bytes readLE
    rw [slice_exact _ [] (u16_to_bytes pl) (List.replicate 60 0 ++ rest) 0 2
      (by simp) rfl (by simp [u16_to_bytes])]
    simp [Except.map, leValue_u16 pl hpl]
  have h2 : u32_from_bytes ⟨u16_to_bytes pl ++ List.replicate 60 0 ++ rest, 2⟩ =
      .ok (leValue (((u16_to_bytes pl ++ List.replicate 60 0 ++ rest).drop 2).take 4),
           ⟨u16_to_bytes pl ++ List.replicate 60 0 ++ rest, 6⟩) := by
    unfold u32_from_bytes
    have hh := (readLE_spec 4 (u16_to_bytes pl ++ List.replicate 60 0 ++ rest) 2).1 (by rw [hlen]; omega)
    rw [show (2 : Nat) + 4 = 6 by norm_num] at hh
    exact hh
  have h3 : u32_from_bytes ⟨u16_to_bytes pl ++ List.replicate 60 0 ++ rest, 6⟩ =
      .ok (leValue (((u16_to_bytes pl ++ List.replicate 60 0 ++ rest).drop 6).take 4),
           ⟨u16_to_bytes pl ++ List.replicate 60 0 ++ rest, 10⟩) := by
    unfold u32_from_bytes
    have hh := (readLE_spec 4 (u16_to_bytes pl ++ List.replicate 60 0 ++ rest) 6).1 (by rw [hlen]; omega)
    rw [show (6 : Nat) + 4 = 10 by norm_num] at hh
    exact hh
  have h4 : u32_from_bytes ⟨u16_to_bytes pl ++ List.replicate 60 0 ++ rest, 10⟩ =
      .ok (leValue (((u16_to_bytes pl ++ List.replicate 60 0 ++ rest).drop 10).take 4),
           ⟨u16_to_bytes pl ++ List.replicate 60 0 ++ rest, 14⟩) := by
    unfold u32_from_bytes
    have hh := (readLE_spec 4 (u16_to_bytes pl ++ List.replicate 60 0 ++ rest) 10).1 (by rw [hlen]; omega)
    rw [show (10 : Nat) + 4 = 14 by norm_num] at hh
    exact hh
  have h5 : u32_from_bytes ⟨u16_to_bytes pl ++ List.replicate 60 0 ++ rest, 14⟩ =
      .ok (leValue (((u16_to_bytes pl ++ List.replicate 60 0 ++ rest).drop 14).take 4),
           ⟨u16_to_bytes pl ++ List.replicate 60 0 ++ rest, 18⟩) := by
    unfold u32_from_bytes
    have hh := (readLE_spec 4 (u16_to_bytes pl ++ List.replicate 60 0 ++ rest) 14).1 (by rw [hlen]; omega)
    rw [show (14 : Nat) + 4 = 18 by norm_num] at hh
    exact hh
  have h6 : ByteStream.slice ⟨u16_to_bytes pl ++ List.replicate 60 0 ++ rest, 18⟩ 24 =
      .ok (((u16_to_bytes pl ++ List.replicate 60 0 ++ rest).drop 18).take 24,
           ⟨u16_to_bytes pl ++ List.replicate 60 0 ++ rest, 42⟩) := by
    have hh := (slice_spec 24 (u16_to_bytes pl ++ List.replicate 60 0 ++ rest) 18).1 (by rw [hlen]; omega)
    rw [show (18 : Nat) + 24 = 42 by norm_num] at hh
    exact hh
  have h7 : u16_from_bytes ⟨u16_to_bytes pl ++ List.replicate 60 0 ++ rest, 42⟩ =
      .ok (leValue (((u16_to_bytes pl ++ List.replicate 60 0 ++ rest).drop 42).take 2),
           ⟨u16_to_bytes pl ++ List.replicate 60 0 ++ rest, 44⟩) := by
    unfold u16_from_bytes
    have hh := (readLE_spec 2 (u16_to_bytes pl ++ List.replicate 60 0 ++ rest) 42).1 (by rw [hlen]; omega)
    rw [show (42 : Nat) + 2 = 44 by norm_num] at hh
    exact hh
  have hrep : List.replicate 60 (0 : Nat) =
      List.replicate 42 0 ++ (0 :: List.replicate 17 0) := by decide
  have h8 : Sex.from_bytes ⟨u16_to_bytes pl ++ List.replicate 60 0 ++ rest, 44⟩ =
      .ok (.Female, ⟨u16_to_bytes pl ++ List.replicate 60 0 ++ rest, 45⟩) := by
    unfold Sex.from_bytes u8_from_bytes readLE
    rw [slice_exact _ (u16_to_bytes pl ++ List.replicate 42 0) [0]
      (List.replicate 17 0 ++ rest) 44 1
      (by rw [List.append_assoc]; simp [hrep, List.append_assoc])
      (by simp [u16_to_bytes]) rfl]
    simp [Except.map, leValue]
  have h9 : ByteStream.slice ⟨u16_to_bytes pl ++ List.replicate 60 0 ++ rest, 45⟩ 17 =
      .ok (((u16_to_bytes pl ++ List.replicate 60 0 ++ rest).drop 45).take 17,
           ⟨u16_to_bytes pl ++ List.replicate 60 0 ++ rest, 62⟩) := by
    have hh := (slice_spec 17 (u16_to_bytes pl ++ List.replicate 60 0 ++ rest) 45).1 (by rw [hlen]; omega)
    rw [show (45 : Nat) + 17 = 62 by norm_num] at hh
    exact hh
  simp only [LoginServerLoginSuccessPacket.payload_from_bytes,
    h1, h2, h3, h4, h5, h6, h7, h8, h9]
  by_cases h64 : pl < 64
  · rw [if_pos h64]
    refine ⟨?_, ?_⟩
    · simp only [Except.isOk, Except.toBool]
      constructor
      · intro habs
        simp at habs
      · intro hrhs
        omega
    · intro pkt bs' h
      simp at h
  · rw [if_neg h64]
    have hspec := readSInfo_spec (pl - 64) (u16_to_bytes pl ++ List.replicate 60 0 ++ rest)
      62 (by rw [hlen]; omega)
    cases hrr : readServerInfoEntries (pl - 64)
        ⟨u16_to_bytes pl ++ List.replicate 60 0 ++ rest, 62⟩ with
    | error err =>
      rw [hrr] at hspec
      simp only [hrr, Except.map]
      refine ⟨?_, ?_⟩
      · simp only [Except.isOk, Except.toBool]
        constructor
        · intro habs
          simp at habs
        · intro hrhs
          exfalso
          have hmem : (pl - 64) % 160 = 0 ∧ 62 + (pl - 64) ≤
              (u16_to_bytes pl ++ List.replicate 60 0 ++ rest).length := by
            rw [hlen] at *
            omega
          have := hspec.1.mpr hmem
          simp [Except.isOk, Except.toBool] at this
      · intro pkt bs' h
        simp at h
    | ok pr =>
      obtain ⟨es, bs2⟩ := pr
      rw [hrr] at hspec
      simp only [hrr, Except.map]
      have hbs2 := hspec.2 es bs2 rfl
      have hok := hspec.1.mp (by simp [Except.isOk, Except.toBool])
      refine ⟨?_, ?_⟩
      · simp only [Except.isOk, Except.toBool]
        constructor
        · intro _
          rw [hlen] at *
          omega
        · intro _
          trivial
      · intro pkt bs' h
        simp at h
        refine ⟨?_, ?_⟩
        · rw [← h.2, hbs2]
          congr 1
          omega
        · rw [← h.1]

/-- C8: for the packets with a self-describing packet_length field
(`ReputationPacket` and `LoginServerLoginSuccessPacket`), a successful
payload decode consumes exactly packet_length - 2 bytes (so exactly
packet_length counting the 2-byte header) and records the declared
length; the decode succeeds precisely when the declared length covers
the mandatory fields, the repeating-remaining region is an exact
multiple of the entry size (no trailing bytes inside the declared
region) and the physical buffer holds at least the declared bytes (no
missing bytes) — trailing physical bytes beyond the declared length are
left unconsumed, the region being bounded by the declared length, not
the buffer end. -/
theorem C8_self_describing_packet_length
    (pl s : Nat) (rest : List Nat) (hpl : pl < 65536)
    (pl2 : Nat) (rest2 : List Nat) (hpl2 : pl2 < 65536) :
    (((ReputationPacket.payload_from_bytes ⟨u16_to_bytes pl ++ s :: rest, 0⟩).isOk = true ↔
        5 ≤ pl ∧ (pl - 5) % 16 = 0 ∧ pl - 2 ≤ (u16_to_bytes pl ++ s :: rest).length) ∧
      (∀ pkt bs', ReputationPacket.payload_from_bytes ⟨u16_to_bytes pl ++ s :: rest, 0⟩ =
          .ok (pkt, bs') →
        bs' = ⟨u16_to_bytes pl ++ s :: rest, pl - 2⟩ ∧ pkt.packet_length = pl)) ∧
    (((LoginServerLoginSuccessPacket.payload_from_bytes
          ⟨u16_to_bytes pl2 ++ List.replicate 60 0 ++ rest2, 0⟩).isOk = true ↔
        64 ≤ pl2 ∧ (pl2 - 64) % 160 = 0 ∧
        pl2 - 2 ≤ (u16_to_bytes pl2 ++ List.replicate 60 0 ++ rest2).length) ∧
      (∀ pkt bs', LoginServerLoginSuccessPacket.payload_from_bytes
          ⟨u16_to_bytes pl2 ++ List.replicate 60 0 ++ rest2, 0⟩ = .ok (pkt, bs') →
        bs' = ⟨u16_to_bytes pl2 ++ List.replicate 60 0 ++ rest2, pl2 - 2⟩ ∧
        pkt.packet_length = pl2)) :=
  ⟨repPacket_payload_spec pl s rest hpl, lsls_payload_spec pl2 rest2 hpl2⟩

/-- C8, witness: a ReputationPacket with declared length 21 (one 16-byte
entry) and a LoginServerLoginSuccessPacket with declared length 224 (one
160-byte entry), at concrete buffers. -/
theorem C8_self_describing_packet_length_witness :
    (21 : Nat) < 65536 ∧ (224 : Nat) < 65536 ∧
    (((ReputationPacket.payload_from_bytes
        ⟨u16_to_bytes 21 ++ 1 :: List.replicate 16 0, 0⟩).isOk = true ↔
      5 ≤ 21 ∧ (21 - 5) % 16 = 0 ∧
      21 - 2 ≤ (u16_to_bytes 21 ++ 1 :: List.replicate 16 0).length) ∧
    ((LoginServerLoginSuccessPacket.payload_from_bytes
        ⟨u16_to_bytes 224 ++ List.replicate 60 0 ++ List.replicate 160 0, 0⟩).isOk = true ↔
      64 ≤ 224 ∧ (224 - 64) % 160 = 0 ∧
      224 - 2 ≤ (u16_to_bytes 224 ++ List.replicate 60 0 ++ List.replicate 160 0).length)) :=
  ⟨by decide, by decide,
   (C8_self_describing_packet_length 21 1 (List.replicate 16 0) (by decide)
      224 (List.replicate 160 0) (by decide)).1.1,
   (C8_self_describing_packet_length 21 1 (List.replicate 16 0) (by decide)
      224 (List.replicate 160 0) (by decide)).2.1⟩
